import Mathlib

/-!
Shallow embedding of the spiking-neuron simulation core
(`src/components/SoundManager.js` Neuron and SoundManager classes,
`src/components/ConnectionManager.js` ConnectionManager class).

Numeric values (charges, weights, speeds, timestamps in milliseconds) are
modelled as rationals; timestamps come from the host clock
(`performance.now()` / `Date.now()`) and are threaded through explicitly.
JavaScript `Set` and `Map` collections are modelled as lists that reproduce
the insertion-order semantics of `Set.add` / `Map.set`.
-/

namespace SNN

/-- JavaScript `Set.prototype.add` on a duplicate-free list: a no-op when the
element is present, otherwise appended at the end. -/
def setAdd (l : List ℕ) (k : ℕ) : List ℕ :=
  if k ∈ l then l else l ++ [k]

/-- JavaScript `Map.prototype.set`: updates the value in place when the key is
present (keeping insertion order), otherwise appends the new entry. -/
def mapSet {α : Type} (l : List (ℕ × α)) (k : ℕ) (v : α) : List (ℕ × α) :=
  if l.any (fun p => p.1 = k) then
    l.map (fun p => if p.1 = k then (k, v) else p)
  else l ++ [(k, v)]

/-- JavaScript `Map.prototype.get`, returning `none` for a missing key. -/
def mapGet {α : Type} (l : List (ℕ × α)) (k : ℕ) : Option α :=
  (l.find? (fun p => p.1 = k)).map (fun p => p.2)

/-- JavaScript `Math.round` on an exact rational: round half away from zero
toward positive infinity, i.e. `⌊x + 1/2⌋`. -/
def jsRound (x : ℚ) : ℚ := (⌊x + 1/2⌋ : ℤ)

/-- `Neuron` (SoundManager.js, `class Neuron`): the simulation-relevant fields.
`dcIntervalActive` models whether the recurring 50 ms DC-bias `setInterval`
handle (`this.dcInterval`) is currently registered.  Rendering-only fields
(mesh, scales, colors, gsap animation handles) are external collaborators and
are not part of the state. -/
structure Neuron where
  id : ℕ
  threshold : ℚ
  chargeRate : ℚ
  refractionPeriod : ℚ
  currentCharge : ℚ
  lastFiringTime : ℚ
  isFiring : Bool
  dcInput : ℚ
  dcIntervalActive : Bool
  outgoingConnections : List ℕ
  synapticWeights : List (ℕ × ℚ)
  synapticSpeeds : List (ℕ × ℚ)
  deriving Repr, DecidableEq

/-- Neuron constructor (SoundManager.js:247-303): constants and initial state.
The ctor first assigns the sequential `++Neuron.neuronCount` id and then
overwrites it with the "Sound id" `Math.floor(Math.random() * 10000)`; the
random draw `r` (the value of `Math.random()`, in `[0,1)`) is an explicit
parameter. -/
def mkNeuron (r : ℚ) : Neuron where
  id := (⌊r * 10000⌋).toNat
  threshold := 1
  chargeRate := 1/100
  refractionPeriod := 100
  currentCharge := 0
  lastFiringTime := 0
  isFiring := false
  dcInput := 0
  dcIntervalActive := false
  outgoingConnections := []
  synapticWeights := []
  synapticSpeeds := []

/-- `Neuron.isInRefractoryPeriod` (SoundManager.js:697-699), at clock value
`now` (`performance.now()`). -/
def isInRefractoryPeriod (now : ℚ) (n : Neuron) : Bool :=
  now - n.lastFiringTime < n.refractionPeriod

/-- `Neuron.fire` (SoundManager.js:370-519), state-transition part: no-op when
already firing or still within the refractory window, otherwise enter the
Firing state and record the firing time.  The returned flag reports whether
the firing branch executed (sound emission and propagation scheduling toward
the external collaborators happen exactly when it is `true`). -/
def fire (now : ℚ) (n : Neuron) : Neuron × Bool :=
  if n.isFiring then (n, false)
  else if now - n.lastFiringTime < n.refractionPeriod then (n, false)
  else ({ n with isFiring := true, lastFiringTime := now }, true)

/-- `Neuron.addCharge` (SoundManager.js:654-674): no-op while Firing or
refractory; otherwise clamp the accumulated charge at the threshold and fire
when the threshold is reached.  The flag reports whether `fire()` executed
its firing branch during this call. -/
def addCharge (now : ℚ) (amount : ℚ) (n : Neuron) : Neuron × Bool :=
  if n.isFiring || isInRefractoryPeriod now n then (n, false)
  else
    let n' : Neuron := { n with currentCharge := min (n.currentCharge + amount) n.threshold }
    if n'.currentCharge ≥ n'.threshold && !n'.isFiring then fire now n'
    else (n', false)

/-- `Neuron.forceReset` (SoundManager.js:676-694), state part: clear the
Firing flag, zero the charge and zero the last firing time (the visual
restoration acts on the external mesh only). -/
def forceReset (n : Neuron) : Neuron :=
  { n with isFiring := false, currentCharge := 0, lastFiringTime := 0 }

/-- `Neuron.setDCInput` (SoundManager.js:624-652): store
`Math.max(0, Math.round(value * 100) / 100)`, always cancel the recurring DC
tick, force a full reset exactly when the new value and the previous value are
both `≤ 0`, and otherwise restart the recurring tick when the new value is
positive. -/
def setDCInput (value : ℚ) (n : Neuron) : Neuron :=
  let previousDC := n.dcInput
  let newDC := max 0 (jsRound (value * 100) / 100)
  let n1 : Neuron := { n with dcInput := newDC, dcIntervalActive := false }
  if newDC ≤ 0 ∧ previousDC ≤ 0 then forceReset n1
  else { n1 with dcIntervalActive := decide (newDC > 0) }

/-- `Neuron.addConnection` (SoundManager.js:715-719). -/
def addConnection (targetIndex : ℕ) (initialWeight initialSpeed : ℚ) (n : Neuron) : Neuron :=
  { n with
    outgoingConnections := setAdd n.outgoingConnections targetIndex
    synapticWeights := mapSet n.synapticWeights targetIndex initialWeight
    synapticSpeeds := mapSet n.synapticSpeeds targetIndex initialSpeed }

/-- `Neuron.updateConnectionWeight` (SoundManager.js:721-725). -/
def updateConnectionWeight (targetIndex : ℕ) (weight : ℚ) (n : Neuron) : Neuron :=
  if targetIndex ∈ n.outgoingConnections then
    { n with synapticWeights := mapSet n.synapticWeights targetIndex weight }
  else n

/-- `Neuron.updateConnectionSpeed` (SoundManager.js:727-731). -/
def updateConnectionSpeed (targetIndex : ℕ) (speed : ℚ) (n : Neuron) : Neuron :=
  if targetIndex ∈ n.outgoingConnections then
    { n with synapticSpeeds := mapSet n.synapticSpeeds targetIndex speed }
  else n

/-- `Neuron.removeConnection` (SoundManager.js:733-737). -/
def removeConnection (targetIndex : ℕ) (n : Neuron) : Neuron :=
  { n with
    outgoingConnections := n.outgoingConnections.filter (fun k => k ≠ targetIndex)
    synapticWeights := n.synapticWeights.filter (fun p => p.1 ≠ targetIndex)
    synapticSpeeds := n.synapticSpeeds.filter (fun p => p.1 ≠ targetIndex) }

/-! Trace semantics: the externally reachable mutations of one neuron's state,
each stamped with the host-clock value at which it runs. -/

/-- An externally triggered operation on a single neuron: an `addCharge` call
(DC tick or propagation delivery), a direct `fire()` call, or a `setDCInput`
call (wheel / pinch handlers in InputManager). -/
inductive Event
  | addChargeEv (amount : ℚ)
  | fireEv
  | setDCEv (value : ℚ)
  deriving Repr, DecidableEq

/-- One event applied at clock value `now`; the flag reports whether the
neuron's firing branch executed during the event. -/
def step (now : ℚ) (e : Event) (n : Neuron) : Neuron × Bool :=
  match e with
  | .addChargeEv a => addCharge now a n
  | .fireEv => fire now n
  | .setDCEv v => (setDCInput v n, false)

/-- Whether an event is a `setDCInput` call (the only trace event able to
reach `forceReset` and clobber `lastFiringTime`). -/
def Event.isSetDC : Event → Bool
  | .setDCEv _ => true
  | _ => false

/-- Run a timestamped event list over a neuron, collecting the clock values of
all firing events in order. -/
def runFirings : Neuron → List (ℚ × Event) → Neuron × List ℚ
  | n, [] => (n, [])
  | n, (t, e) :: tr =>
    let p := step t e n
    let q := runFirings p.1 tr
    (q.1, (if p.2 then [t] else []) ++ q.2)

/-! Connection graph (`ConnectionManager.js`).  The `connections` member is a
JavaScript `Map` keyed by freshly allocated `THREE.Group` objects, so every
`createConnection` call inserts a distinct new entry; it is modelled as a list
of edge records in insertion order.  `window.circles` is the global array of
neuron meshes; meshes are identified by their array index (the code itself
keys a neuron's outgoing map by `window.circles.indexOf(target)`). -/

/-- One entry of `ConnectionManager.connections`.  `arrowAttached` models the
truthiness of `connection.arrow && connection.arrow.parent` (the presentation
handle being present and attached). -/
structure Edge where
  source : ℕ
  target : ℕ
  weight : ℚ
  speed : ℚ
  arrowAttached : Bool
  deriving Repr, DecidableEq

/-- One entry of `window.circles`: a mesh with (possibly missing) position and
its attached `Neuron`. -/
structure Mesh where
  hasPosition : Bool
  neuron : Neuron
  deriving Repr, DecidableEq

/-- `ConnectionManager.createConnection` (ConnectionManager.js:680-729), with
the two meshes referenced by their `window.circles` indices and the
`Math.random()` draw `r` for the connection speed passed explicitly.  Returns
`none` (JS `null`) when either mesh or its position is missing; otherwise adds
a fresh edge record with weight `0.2` and speed `0.3 + r * 0.5`, registers the
target on the source neuron's outgoing set, and returns the updated edge list,
the updated circles array, and the created edge. -/
def createConnection (circles : List Mesh) (conns : List Edge) (srcIdx tgtIdx : ℕ)
    (r : ℚ) : Option (List Edge × List Mesh × Edge) :=
  match circles.get? srcIdx, circles.get? tgtIdx with
  | some srcMesh, some tgtMesh =>
    if srcMesh.hasPosition && tgtMesh.hasPosition then
      let randomSpeed := 3/10 + r * (1/2)
      let e : Edge :=
        { source := srcIdx, target := tgtIdx, weight := 1/5, speed := randomSpeed
          arrowAttached := true }
      let circles' := circles.set srcIdx
        { srcMesh with neuron := addConnection tgtIdx e.weight e.speed srcMesh.neuron }
      some (conns ++ [e], circles', e)
    else none
  | _, _ => none

/-- `ConnectionManager.validateConnections` (ConnectionManager.js:731-739):
delete every connection whose arrow is missing or detached
(`!connection.arrow || !connection.arrow.parent`); nothing else is inspected. -/
def validateConnections (conns : List Edge) : List Edge :=
  conns.filter (fun e => e.arrowAttached)

/-- Whether an index resolves to a live neuron mesh in `window.circles`. -/
def resolvesLive (circles : List Mesh) (i : ℕ) : Bool :=
  i < circles.length

/-! Sonification (`SoundManager.js`, `class SoundManager`).  The Tone.js
synth graph is an external collaborator; the state modelled here is the note
assignment registry, the melodic-pattern cursor and the rate limiter.  A note
is identified by its range tier and index into the five-note pentatonic
table. -/

/-- Range tier of `this.notes` (SoundManager.js:54-58). -/
inductive Range
  | high
  | mid
  | low
  deriving Repr, DecidableEq

/-- Entry of `this.neuronNotes` (SoundManager.js:93-96). -/
structure NoteData where
  range : Range
  noteIndex : ℕ
  deriving Repr, DecidableEq

/-- Synth amplitude envelope settings. -/
structure Envelope where
  attack : ℚ
  decay : ℚ
  sustain : ℚ
  release : ℚ
  deriving Repr, DecidableEq

/-- FM modulation settings. -/
structure Modulation where
  harmonicity : ℚ
  modulationIndex : ℚ
  deriving Repr, DecidableEq

/-- Effect wet levels. -/
structure Effects where
  reverbWet : ℚ
  chorusWet : ℚ
  deriving Repr, DecidableEq

/-- The audio payload handed to the external synth by `playNeuronFiring`:
note, envelope, modulation, effect levels, velocity and duration subsequently
passed to `triggerAttackRelease`. -/
structure Payload where
  note : NoteData
  envelope : Envelope
  modulation : Modulation
  effects : Effects
  velocity : ℚ
  duration : ℚ
  deriving Repr, DecidableEq

/-- Mutable state of `SoundManager` (SoundManager.js:60-70). -/
structure SM where
  lastNoteIndex : ℤ
  melodyDirection : ℤ
  currentPatternIndex : ℕ
  isPlaying : Bool
  lastPlayTime : ℚ
  minTimeBetweenNotes : ℚ
  neuronNotes : List (ℕ × NoteData)
  deriving Repr, DecidableEq

/-- `SoundManager` constructor state (SoundManager.js:60-70). -/
def initSM : SM where
  lastNoteIndex := 0
  melodyDirection := 1
  currentPatternIndex := 0
  isPlaying := false
  lastPlayTime := 0
  minTimeBetweenNotes := 200
  neuronNotes := []

/-- `this.melodicPattern` (SoundManager.js:63). -/
def melodicPattern : List ℕ := [0, 2, 4, 3, 1]

/-- JavaScript remainder `a % b`: `a - b * trunc(a / b)` (sign follows the
dividend). -/
def jsRem (a b : ℤ) : ℤ := a - b * (Int.tdiv a b)

/-- `SoundManager.assignNoteRange` (SoundManager.js:83-107): pick the range
tier by `neuronId % 3` over `['mid','high','low']`, draw the note index from
the shared melodic pattern cursor, store the assignment, and advance the
legacy `lastNoteIndex`/`melodyDirection` bookkeeping.  Returns the updated
state and the assigned range. -/
def assignNoteRange (neuronId : ℕ) (sm : SM) : SM × Range :=
  let ranges : List Range := [.mid, .high, .low]
  let range := ranges.getD (neuronId % 3) .mid
  let noteIndex := melodicPattern.getD sm.currentPatternIndex 0
  let sm1 : SM :=
    { sm with
      currentPatternIndex := (sm.currentPatternIndex + 1) % melodicPattern.length
      neuronNotes := mapSet sm.neuronNotes neuronId ⟨range, noteIndex⟩ }
  let direction : ℤ :=
    if sm1.lastNoteIndex ≥ 4 then -1
    else if sm1.lastNoteIndex ≤ 0 then 1
    else sm1.melodyDirection
  ({ sm1 with
      melodyDirection := direction
      lastNoteIndex := jsRem (sm1.lastNoteIndex + direction) 5 }, range)

/-- `SoundManager.playNeuronFiring` (SoundManager.js:109-203): drop the
request entirely when it arrives within `minTimeBetweenNotes` of the last
emitted payload; otherwise record the play time, look up (or assign) the
neuron's note, clamp weight and speed to `[0.2, 0.8]`, build the envelope,
modulation and effect parameters for the three firing contexts, and emit the
payload. -/
def playNeuronFiring (now : ℚ) (weight speed : ℚ) (neuronId : ℕ)
    (isIsolated hasDC : Bool) (distance : ℚ) (sm : SM) : SM × Option Payload :=
  if now - sm.lastPlayTime < sm.minTimeBetweenNotes then (sm, none)
  else
    let sm1 : SM := { sm with lastPlayTime := now, isPlaying := true }
    let sm2 :=
      match mapGet sm1.neuronNotes neuronId with
      | some _ => sm1
      | none => (assignNoteRange neuronId sm1).1
    let noteData := (mapGet sm2.neuronNotes neuronId).getD ⟨.mid, 0⟩
    let w := max (1/5) (min (4/5) weight)
    let s := max (1/5) (min (4/5) speed)
    let envelope : Envelope :=
      if isIsolated then
        if hasDC then ⟨1/50, 3/10, 0, 0⟩
        else ⟨1/50, 0, 1/10, 0⟩
      else ⟨1/50, 1/5 + w * (1/5), 1/10 + w * (1/10), 3/10 + distance * (1/10)⟩
    let modulation : Modulation :=
      if isIsolated then
        if hasDC then ⟨2, 3/2⟩ else ⟨2, 1⟩
      else ⟨2 + w, 1 + w⟩
    let effects : Effects :=
      if isIsolated then
        if hasDC then ⟨0, 1/5⟩ else ⟨0, 0⟩
      else ⟨min (3/10) (distance * (1/10)), 1/10 + s * (1/10)⟩
    let velocity : ℚ :=
      if isIsolated then (if hasDC then 3/5 else 2/5) else 1/2 + w * (3/10)
    let duration : ℚ := max (1/10) (envelope.sustain + envelope.release)
    (sm2, some
      { note := noteData, envelope := envelope, modulation := modulation
        effects := effects, velocity := velocity, duration := duration })

/-- A concrete mid-firing neuron state (charge at threshold, fired at clock
1000), used as a test state by several witnesses. -/
def firingNeuron : Neuron :=
  { mkNeuron 0 with isFiring := true, currentCharge := 1, lastFiringTime := 1000 }

/-- Concrete scenario state: a fresh neuron after accumulating charge 0.6. -/
def chargedNeuron : Neuron := { mkNeuron 0 with currentCharge := 3/5 }

/-- Concrete scenario state: a fresh neuron that reached threshold and fired
at clock `t`. -/
def firedNeuron (t : ℚ) : Neuron :=
  { mkNeuron 0 with currentCharge := 1, isFiring := true, lastFiringTime := t }

/-- A concrete two-mesh world (two fresh neurons, both with positions). -/
def cmWorld0 : List Mesh := [⟨true, mkNeuron 0⟩, ⟨true, mkNeuron 0⟩]

/-- The edge created by `createConnection` from mesh 0 to mesh 1 with random
draw 0: weight 0.2, speed 0.3. -/
def e01 : Edge := ⟨0, 1, 1/5, 3/10, true⟩

/-- `cmWorld0` after mesh 0's neuron registered the outgoing edge to mesh 1. -/
def cmWorld1 : List Mesh :=
  [⟨true, addConnection 1 (1/5) (3/10) (mkNeuron 0)⟩, ⟨true, mkNeuron 0⟩]

/-- The self-edge created by `createConnection` from mesh 0 to itself with
random draw 0. -/
def e00 : Edge := ⟨0, 0, 1/5, 3/10, true⟩

/-- `cmWorld0` after mesh 0's neuron registered an outgoing edge to itself. -/
def cmWorldSelf : List Mesh :=
  [⟨true, addConnection 0 (1/5) (3/10) (mkNeuron 0)⟩, ⟨true, mkNeuron 0⟩]

/-- An edge whose endpoint indices resolve to no live neuron but whose
presentation arrow is still attached. -/
def danglingEdge : Edge := ⟨5, 6, 1/5, 1/2, true⟩

/-! Helper lemmas shared by the claim theorems. -/

/-- Characterization of `addCharge` on an idle, non-refractory neuron: the
charge is clamped at the threshold and the neuron fires exactly when the
unclamped sum reaches the threshold. -/
lemma addCharge_live (n : Neuron) (now amount : ℚ) (hf : n.isFiring = false)
    (hr : ¬(now - n.lastFiringTime < n.refractionPeriod)) :
    addCharge now amount n =
      if n.threshold ≤ n.currentCharge + amount then
        ({ n with currentCharge := min (n.currentCharge + amount) n.threshold, isFiring := true, lastFiringTime := now }, true)
      else
        ({ n with currentCharge := min (n.currentCharge + amount) n.threshold }, false) := by
  have hguard : (n.isFiring || isInRefractoryPeriod now n) = false := by
    simp [hf, isInRefractoryPeriod, hr]
  by_cases hth : n.threshold ≤ n.currentCharge + amount
  · have hmin : n.threshold ≤ min (n.currentCharge + amount) n.threshold :=
      le_min hth le_rfl
    simp [addCharge, fire, hguard, hf, hr, hmin, isInRefractoryPeriod, if_pos hth]
  · have hmin : ¬ n.threshold ≤ min (n.currentCharge + amount) n.threshold := by
      simp [le_min_iff, hth]
    simp [addCharge, fire, hguard, hf, hr, hmin, isInRefractoryPeriod, if_neg hth]

/-- Every trace event preserves the refractory-period constant. -/
lemma step_refractionPeriod (now : ℚ) (e : Event) (n : Neuron) :
    (step now e n).1.refractionPeriod = n.refractionPeriod := by
  cases e <;>
    simp only [step, addCharge, fire, setDCInput, forceReset] <;>
    split_ifs <;> rfl

/-- A step that fires happened at least one refractory period after the
recorded last firing time, and records the step's clock value. -/
lemma step_fired_lastFiringTime (now : ℚ) (e : Event) (n : Neuron)
    (h : (step now e n).2 = true) :
    n.refractionPeriod ≤ now - n.lastFiringTime ∧ (step now e n).1.lastFiringTime = now := by
  cases e with
  | addChargeEv a =>
    simp only [step, addCharge, fire, isInRefractoryPeriod] at h ⊢
    split_ifs at h ⊢
    all_goals first
      | exact absurd rfl (by simpa using h)
      | simp_all [not_lt]
  | fireEv =>
    simp only [step, fire] at h ⊢
    split_ifs at h ⊢
    all_goals first
      | exact absurd rfl (by simpa using h)
      | simp_all [not_lt]
  | setDCEv v =>
    simp [step] at h

/-- A non-`setDCInput` step that does not fire leaves `lastFiringTime`
untouched. -/
lemma step_notFired_lastFiringTime (now : ℚ) (e : Event) (n : Neuron)
    (hs : e.isSetDC = false) (h : (step now e n).2 = false) :
    (step now e n).1.lastFiringTime = n.lastFiringTime := by
  cases e with
  | addChargeEv a =>
    simp only [step, addCharge, fire] at h ⊢
    split_ifs at h ⊢ <;> simp_all
  | fireEv =>
    simp only [step, fire] at h ⊢
    split_ifs at h ⊢ <;> simp_all
  | setDCEv v =>
    simp [Event.isSetDC] at hs

/-- Over any event trace containing no `setDCInput` call, successive firing
timestamps (seeded with the initial `lastFiringTime`) are separated by at
least the refractory period. -/
lemma runFirings_chain (tr : List (ℚ × Event)) :
    ∀ n : Neuron, (∀ te ∈ tr, te.2.isSetDC = false) →
      List.Chain' (fun t1 t2 => n.refractionPeriod ≤ t2 - t1)
        (n.lastFiringTime :: (runFirings n tr).2) := by
  induction tr with
  | nil => intro n _; simp [runFirings]
  | cons te tr ih =>
    intro n h
    obtain ⟨t, e⟩ := te
    have hs : e.isSetDC = false := h (t, e) (List.mem_cons_self _ _)
    have htr : ∀ x ∈ tr, x.2.isSetDC = false := fun x hx => h x (List.mem_cons_of_mem _ hx)
    have hper : (step t e n).1.refractionPeriod = n.refractionPeriod :=
      step_refractionPeriod t e n
    have ihn := ih (step t e n).1 htr
    rw [hper] at ihn
    cases hf : (step t e n).2 with
    | false =>
      have hlft := step_notFired_lastFiringTime t e n hs hf
      simp only [runFirings, hf, if_neg Bool.false_ne_true, List.nil_append]
      rw [← hlft]
      exact ihn
    | true =>
      obtain ⟨hgap, hlft⟩ := step_fired_lastFiringTime t e n hf
      simp only [runFirings, hf, if_pos rfl, List.singleton_append]
      rw [hlft] at ihn
      exact List.chain'_cons.mpr ⟨by linarith, ihn⟩

/-! Claim theorems. -/

/-- Claim C1: `addCharge(amount)` is a no-op (charge unchanged) while the
neuron is Firing or within its refractory window; otherwise the new charge is
`min(charge + amount, threshold)` and `fire()` is triggered exactly when the
charge reaches the threshold; in particular, from charge 0 with threshold
1.0, `addCharge(0.6)` followed by `addCharge(0.6)` leaves the charge clamped
at 1.0 with exactly one firing. -/
theorem claim_C1_addCharge (n : Neuron) (now amount : ℚ) :
    (n.isFiring = true ∨ isInRefractoryPeriod now n = true →
      addCharge now amount n = (n, false))
    ∧ (n.isFiring = false → isInRefractoryPeriod now n = false →
        (addCharge now amount n).1.currentCharge = min (n.currentCharge + amount) n.threshold
        ∧ ((addCharge now amount n).2 = true ↔
            n.threshold ≤ min (n.currentCharge + amount) n.threshold))
    ∧ ((addCharge 1000 (3/5) (mkNeuron 0)).2 = false
        ∧ (addCharge 1000 (3/5) (addCharge 1000 (3/5) (mkNeuron 0)).1).1.currentCharge = 1
        ∧ (addCharge 1000 (3/5) (addCharge 1000 (3/5) (mkNeuron 0)).1).2 = true) := by
  refine ⟨?_, ?_, ?_⟩
  · rintro (h | h) <;> simp [addCharge, h]
  · intro hf hr
    have hr' : ¬(now - n.lastFiringTime < n.refractionPeriod) := by
      simpa [isInRefractoryPeriod] using hr
    rw [addCharge_live n now amount hf hr']
    split_ifs with hth
    · exact ⟨rfl, by simp [le_min_iff, hth]⟩
    · exact ⟨rfl, by simp [le_min_iff, hth]⟩
  · have h1 : addCharge 1000 (3/5) (mkNeuron 0) = (chargedNeuron, false) := by
      rw [addCharge_live (mkNeuron 0) 1000 (3/5) rfl (by norm_num [mkNeuron])]
      rw [if_neg (by norm_num [mkNeuron])]
      simp [chargedNeuron, mkNeuron]
      norm_num
    have h2 : addCharge 1000 (3/5) chargedNeuron = (firedNeuron 1000, true) := by
      rw [addCharge_live chargedNeuron 1000 (3/5) rfl
        (by norm_num [chargedNeuron, mkNeuron])]
      rw [if_pos (by norm_num [chargedNeuron, mkNeuron])]
      simp [chargedNeuron, firedNeuron, mkNeuron]
      norm_num
    have h1a : (addCharge 1000 (3/5) (mkNeuron 0)).1 = chargedNeuron := by rw [h1]
    exact ⟨by rw [h1], by rw [h1a, h2]; rfl, by rw [h1a, h2]⟩

/-- Witness for C1 at concrete inputs: a firing neuron ignores added charge,
and an idle neuron at clock 1000 accumulates `min(charge + amount,
threshold)`. -/
theorem claim_C1_addCharge_witness :
    addCharge 0 1 firingNeuron = (firingNeuron, false)
    ∧ (addCharge 1000 (1/2) (mkNeuron 0)).1.currentCharge =
        min ((mkNeuron 0).currentCharge + 1/2) (mkNeuron 0).threshold :=
  ⟨(claim_C1_addCharge firingNeuron 0 1).1 (Or.inl rfl),
   ((claim_C1_addCharge (mkNeuron 0) 1000 (1/2)).2.1 rfl
      (by norm_num [isInRefractoryPeriod, mkNeuron])).1⟩

/-- Claim C2 (amended): `fire()` is a no-op when the neuron is already Firing
or still within `refractoryPeriodMs` of `lastFiringTime`; consequently, along
any event trace that contains no `setDCInput` call (the only traced operation
able to reach `forceReset` and clobber `lastFiringTime`), consecutive firing
timestamps are separated by at least `refractoryPeriodMs`. -/
theorem claim_C2_refractory (n : Neuron) (now : ℚ) (tr : List (ℚ × Event)) :
    (n.isFiring = true ∨ now - n.lastFiringTime < n.refractionPeriod →
      fire now n = (n, false))
    ∧ ((∀ te ∈ tr, te.2.isSetDC = false) →
        List.Chain' (fun t1 t2 => n.refractionPeriod ≤ t2 - t1)
          (n.lastFiringTime :: (runFirings n tr).2)) := by
  constructor
  · rintro (h | h) <;> simp [fire, h]
  · exact runFirings_chain tr n

/-- Counterexample to C2 as stated: after firing at clock 1000, a
`setDCInput(0)` call (legal while the DC input is already 0) force-resets
`lastFiringTime` to 0, letting the same neuron fire again at clock 1050 —
two consecutive firing timestamps only 50 ms apart, below the 100 ms
refractory period. -/
theorem claim_C2_counterexample :
    (runFirings (mkNeuron 0)
      [(1000, .addChargeEv 1), (1010, .setDCEv 0), (1050, .addChargeEv 1)]).2 = [1000, 1050]
    ∧ (1050 : ℚ) - 1000 < (mkNeuron 0).refractionPeriod := by
  have h1 : step 1000 (.addChargeEv 1) (mkNeuron 0) = (firedNeuron 1000, true) := by
    rw [step, addCharge_live (mkNeuron 0) 1000 1 rfl (by norm_num [mkNeuron])]
    rw [if_pos (by norm_num [mkNeuron])]
    simp [firedNeuron, mkNeuron]
  have h2 : step 1010 (.setDCEv 0) (firedNeuron 1000) = (mkNeuron 0, false) := by
    rw [step]
    norm_num [setDCInput, forceReset, jsRound, firedNeuron, mkNeuron]
  have h3 : step 1050 (.addChargeEv 1) (mkNeuron 0) = (firedNeuron 1050, true) := by
    rw [step, addCharge_live (mkNeuron 0) 1050 1 rfl (by norm_num [mkNeuron])]
    rw [if_pos (by norm_num [mkNeuron])]
    simp [firedNeuron, mkNeuron]
  refine ⟨?_, by norm_num [mkNeuron]⟩
  simp [runFirings, h1, h2, h3]

/-- Witness for the amended C2: a concrete already-firing neuron's `fire()`
is a no-op, and on a concrete two-event trace without `setDCInput` the
firing-timestamp chain respects the refractory period. -/
theorem claim_C2_refractory_witness :
    fire 1050 firingNeuron = (firingNeuron, false)
    ∧ List.Chain' (fun t1 t2 => (mkNeuron 0).refractionPeriod ≤ t2 - t1)
        ((mkNeuron 0).lastFiringTime ::
          (runFirings (mkNeuron 0) [(1000, .addChargeEv 1), (1050, .addChargeEv 1)]).2) :=
  ⟨(claim_C2_refractory firingNeuron 1050 []).1 (Or.inl rfl),
   (claim_C2_refractory (mkNeuron 0) 0
      [(1000, .addChargeEv 1), (1050, .addChargeEv 1)]).2
      (by intro te hte; fin_cases hte <;> rfl)⟩

/-- Claim C3: `setDCInput` performs a full reset (Firing cleared, charge
zeroed, `lastFiringTime` zeroed) if and only if the new `dcInput` is ≤ 0 and
the previous `dcInput` was already ≤ 0; in every other case the charge,
`lastFiringTime` and Firing flag are left unchanged and only the recurring
DC tick is cancelled (restarted exactly when the new `dcInput` is
positive). -/
theorem claim_C3_setDCInput (n : Neuron) (v : ℚ) :
    ((setDCInput v n).dcInput ≤ 0 ∧ n.dcInput ≤ 0 →
      (setDCInput v n).isFiring = false ∧ (setDCInput v n).currentCharge = 0
      ∧ (setDCInput v n).lastFiringTime = 0 ∧ (setDCInput v n).dcIntervalActive = false)
    ∧ (¬((setDCInput v n).dcInput ≤ 0 ∧ n.dcInput ≤ 0) →
        (setDCInput v n).currentCharge = n.currentCharge
        ∧ (setDCInput v n).lastFiringTime = n.lastFiringTime
        ∧ (setDCInput v n).isFiring = n.isFiring
        ∧ ((setDCInput v n).dcIntervalActive = true ↔ 0 < (setDCInput v n).dcInput)) := by
  simp only [setDCInput, forceReset]
  split_ifs with h <;> constructor <;> intro h2 <;> simp_all

/-- Witness for C3 at concrete inputs: `setDCInput(0)` on a firing neuron
whose DC input is already 0 fully resets it, while `setDCInput(0.5)` on the
same neuron leaves charge, firing flag and last firing time untouched and
restarts the tick. -/
theorem claim_C3_setDCInput_witness :
    ((setDCInput 0 firingNeuron).isFiring = false
      ∧ (setDCInput 0 firingNeuron).currentCharge = 0
      ∧ (setDCInput 0 firingNeuron).lastFiringTime = 0
      ∧ (setDCInput 0 firingNeuron).dcIntervalActive = false)
    ∧ ((setDCInput (1/2) firingNeuron).currentCharge = firingNeuron.currentCharge
      ∧ (setDCInput (1/2) firingNeuron).lastFiringTime = firingNeuron.lastFiringTime
      ∧ (setDCInput (1/2) firingNeuron).isFiring = firingNeuron.isFiring
      ∧ ((setDCInput (1/2) firingNeuron).dcIntervalActive = true ↔
          0 < (setDCInput (1/2) firingNeuron).dcInput)) :=
  ⟨(claim_C3_setDCInput firingNeuron 0).1
      (by norm_num [setDCInput, forceReset, jsRound, firingNeuron, mkNeuron]),
   (claim_C3_setDCInput firingNeuron (1/2)).2
      (by norm_num [setDCInput, forceReset, jsRound, firingNeuron, mkNeuron])⟩

/-- Claim C4 (amended): `setDCInput(value)` stores
`max(0, round(value·100)/100)` — the value rounded to 2 decimals and clamped
below at 0, but NOT clamped above at 1; the stored value is nonnegative and
lies in `[0,1]` whenever `value ≤ 1`. -/
theorem claim_C4_setDCInput_range (v : ℚ) (n : Neuron) :
    (setDCInput v n).dcInput = max 0 (jsRound (v * 100) / 100)
    ∧ 0 ≤ (setDCInput v n).dcInput
    ∧ (v ≤ 1 → (setDCInput v n).dcInput ≤ 1) := by
  have h1 : (setDCInput v n).dcInput = max 0 (jsRound (v * 100) / 100) := by
    simp only [setDCInput, forceReset]
    split_ifs <;> rfl
  refine ⟨h1, by rw [h1]; exact le_max_left _ _, ?_⟩
  intro hv
  rw [h1, max_le_iff]
  refine ⟨by norm_num, ?_⟩
  rw [jsRound, div_le_one (by norm_num)]
  have hfl : (⌊v * 100 + 1/2⌋ : ℤ) < 101 := by
    rw [Int.floor_lt]
    push_cast
    linarith
  have hfl' : (⌊v * 100 + 1/2⌋ : ℤ) ≤ 100 := by omega
  exact_mod_cast hfl'

/-- Counterexample to C4 as stated: `setDCInput(2)` stores `dcInput = 2`,
outside `[0,1]` — the code clamps only from below. -/
theorem claim_C4_counterexample :
    (setDCInput 2 (mkNeuron 0)).dcInput = 2
    ∧ ¬(setDCInput 2 (mkNeuron 0)).dcInput ≤ 1 := by
  norm_num [setDCInput, forceReset, jsRound, mkNeuron]

/-- Witness for the amended C4: `setDCInput(0.37)` stores exactly `0.37`,
which is nonnegative and at most 1. -/
theorem claim_C4_setDCInput_range_witness :
    (setDCInput (37/100) (mkNeuron 0)).dcInput = max 0 (jsRound ((37/100) * 100) / 100)
    ∧ (setDCInput (37/100) (mkNeuron 0)).dcInput ≤ 1 :=
  ⟨(claim_C4_setDCInput_range (37/100) (mkNeuron 0)).1,
   (claim_C4_setDCInput_range (37/100) (mkNeuron 0)).2.2 (by norm_num)⟩

/-- `Set.add`-style insertion is idempotent. -/
lemma setAdd_idem (l : List ℕ) (k : ℕ) : setAdd (setAdd l k) k = setAdd l k := by
  by_cases h : k ∈ l <;> simp [setAdd, h]

/-- The inserted element is a member after `Set.add`-style insertion. -/
lemma setAdd_mem_self (l : List ℕ) (k : ℕ) : k ∈ setAdd l k := by
  by_cases h : k ∈ l <;> simp [setAdd, h]

/-- Concrete evaluation: first `createConnection` call on the two-mesh
world. -/
lemma createConnection_first : createConnection cmWorld0 [] 0 1 0 = some ([e01], cmWorld1, e01) := by
  simp [createConnection, cmWorld0, cmWorld1, e01]

/-- Concrete evaluation: repeating the same `createConnection` call appends a
second identical edge record and leaves the circles unchanged. -/
lemma createConnection_second :
    createConnection cmWorld1 [e01] 0 1 0 = some ([e01, e01], cmWorld1, e01) := by
  simp [createConnection, cmWorld1, e01, addConnection, setAdd, mapSet, mkNeuron]
  try norm_num

/-- Concrete evaluation: `createConnection` accepts a self-connection. -/
lemma createConnection_self :
    createConnection cmWorld0 [] 0 0 0 = some ([e00], cmWorldSelf, e00) := by
  simp [createConnection, cmWorld0, cmWorldSelf, e00]

/-- Structure extracted from a successful `createConnection` call. -/
lemma createConnection_some (circles circles' : List Mesh) (conns conns' : List Edge)
    (s t : ℕ) (r : ℚ) (e : Edge)
    (h : createConnection circles conns s t r = some (conns', circles', e)) :
    conns' = conns ++ [e]
    ∧ e = ⟨s, t, 1/5, 3/10 + r * (1/2), true⟩
    ∧ ∃ ms : Mesh, circles.get? s = some ms
        ∧ circles' = circles.set s
            { ms with neuron := addConnection t (1/5) (3/10 + r * (1/2)) ms.neuron } := by
  unfold createConnection at h
  split at h
  · rename_i ms mt hs ht
    split_ifs at h with hp
    · simp only [Option.some.injEq, Prod.mk.injEq] at h
      obtain ⟨hc, hw, he⟩ := h
      subst he
      exact ⟨hc.symm, rfl, ms, hs, hw.symm⟩
  · exact Option.noConfusion h

/-- Claim C5 (amended): a repeated `createConnection(a,b)` call is an
idempotent update of the source neuron's outgoing registry (the target's
entry in the outgoing set is not duplicated), but the connection manager's
edge map receives a second `a→b` edge record — the second call is a
structural change at the graph level. -/
theorem claim_C5_createConnection_dup (circles circles1 circles2 : List Mesh)
    (conns conns1 conns2 : List Edge) (s t : ℕ) (r1 r2 : ℚ) (e1 e2 : Edge)
    (h1 : createConnection circles conns s t r1 = some (conns1, circles1, e1))
    (h2 : createConnection circles1 conns1 s t r2 = some (conns2, circles2, e2)) :
    conns1 = conns ++ [e1]
    ∧ conns2 = conns ++ [e1] ++ [e2]
    ∧ e1.source = s ∧ e1.target = t ∧ e2.source = s ∧ e2.target = t
    ∧ (∀ (n : Neuron) (w1 s1 w2 s2 : ℚ),
        (addConnection t w2 s2 (addConnection t w1 s1 n)).outgoingConnections
          = (addConnection t w1 s1 n).outgoingConnections) := by
  obtain ⟨hc1, he1, -⟩ := createConnection_some _ _ _ _ _ _ _ _ h1
  obtain ⟨hc2, he2, -⟩ := createConnection_some _ _ _ _ _ _ _ _ h2
  subst he1
  subst he2
  refine ⟨hc1, ?_, rfl, rfl, rfl, rfl, ?_⟩
  · rw [hc2, hc1]
  · intro n w1 s1 w2 s2
    simp [addConnection, setAdd_idem]

/-- Counterexample to C5 as stated: calling `createConnection(0,1)` twice on
the two-mesh world leaves TWO `0→1` edge records in the manager's edge map —
the second call is not a structure-preserving update. -/
theorem claim_C5_counterexample :
    createConnection cmWorld0 [] 0 1 0 = some ([e01], cmWorld1, e01)
    ∧ createConnection cmWorld1 [e01] 0 1 0 = some ([e01, e01], cmWorld1, e01)
    ∧ (([e01, e01].filter (fun e => e.source == 0 && e.target == 1)).length = 2) :=
  ⟨createConnection_first, createConnection_second, by simp [e01]⟩

/-- Witness for the amended C5 on the concrete two-mesh world: the two calls
append two edge records, while the source's outgoing set stays
deduplicated. -/
theorem claim_C5_createConnection_dup_witness :
    ([e01] : List Edge) = [] ++ [e01]
    ∧ ([e01, e01] : List Edge) = [] ++ [e01] ++ [e01]
    ∧ (addConnection 1 (1/5) (3/10) (addConnection 1 (1/5) (3/10) (mkNeuron 0))).outgoingConnections
        = (addConnection 1 (1/5) (3/10) (mkNeuron 0)).outgoingConnections := by
  have h := claim_C5_createConnection_dup cmWorld0 cmWorld1 cmWorld1 [] [e01] [e01, e01]
    0 1 0 0 e01 e01 createConnection_first createConnection_second
  exact ⟨h.1, h.2.1, h.2.2.2.2.2.2 (mkNeuron 0) (1/5) (3/10) (1/5) (3/10)⟩

/-- Claim C6 (amended): `createConnection` returns `null` exactly when a
referenced mesh or its position is missing — a self-connection
(`source = target`) is NOT rejected; on success the edge carries default
weight 0.2 and speed `0.3 + r·0.5` (within `[0.3, 0.8]` for a `Math.random()`
draw `r ∈ [0,1]`), and the target is registered in the source neuron's
outgoing set. -/
theorem claim_C6_createConnection (circles : List Mesh) (conns : List Edge)
    (s t : ℕ) (r : ℚ) :
    (createConnection circles conns s t r = none ↔
      ∀ ms mt : Mesh, circles.get? s = some ms → circles.get? t = some mt →
        ¬(ms.hasPosition = true ∧ mt.hasPosition = true))
    ∧ (∀ (conns' : List Edge) (circles' : List Mesh) (e : Edge),
        createConnection circles conns s t r = some (conns', circles', e) →
        e.weight = 1/5 ∧ e.speed = 3/10 + r * (1/2)
        ∧ (0 ≤ r → r ≤ 1 → 3/10 ≤ e.speed ∧ e.speed ≤ 4/5)
        ∧ ∀ ms : Mesh, circles.get? s = some ms →
            circles'.get? s = some
              { ms with neuron := addConnection t (1/5) (3/10 + r * (1/2)) ms.neuron }
            ∧ t ∈ (addConnection t (1/5) (3/10 + r * (1/2)) ms.neuron).outgoingConnections) := by
  constructor
  · unfold createConnection
    split
    · rename_i ms mt hs ht
      by_cases hp : ms.hasPosition && mt.hasPosition
      · rw [if_pos hp]
        simp only [Bool.and_eq_true] at hp
        exact ⟨fun hnone => Option.noConfusion hnone,
          fun hall => absurd ⟨hp.1, hp.2⟩ (hall ms mt hs ht)⟩
      · rw [if_neg hp]
        simp only [Bool.and_eq_true] at hp
        refine ⟨fun _ ms' mt' hms hmt => ?_, fun _ => rfl⟩
        rw [hs] at hms
        rw [ht] at hmt
        cases hms
        cases hmt
        exact hp
    · rename_i hnone
      exact ⟨fun _ ms' mt' hms hmt => (hnone ms' mt' hms hmt).elim, fun _ => rfl⟩
  · intro conns' circles' e h
    obtain ⟨-, he, ms, hms, hset⟩ := createConnection_some _ _ _ _ _ _ _ _ h
    subst he
    refine ⟨rfl, rfl, ?_, ?_⟩
    · intro h0 h1
      constructor <;> nlinarith
    · intro ms' hms'
      rw [hms'] at hms
      cases hms
      constructor
      · rw [hset, List.get?_eq_getElem?, List.getElem?_set_self']
        rw [← List.get?_eq_getElem?, hms']
        rfl
      · exact setAdd_mem_self _ _

/-- Counterexample to C6 as stated: `createConnection` with `source = target`
does not fail — it creates and returns a self-edge. -/
theorem claim_C6_counterexample :
    createConnection cmWorld0 [] 0 0 0 = some ([e00], cmWorldSelf, e00)
    ∧ e00.source = e00.target :=
  ⟨createConnection_self, rfl⟩

/-- Witness for the amended C6 on the concrete two-mesh world: the created
edge has weight 0.2 and speed 0.3, and the speed bound holds for draw 0. -/
theorem claim_C6_createConnection_witness :
    e01.weight = 1/5 ∧ e01.speed = 3/10 + 0 * (1/2)
    ∧ (3/10 ≤ e01.speed ∧ e01.speed ≤ 4/5) := by
  have h := (claim_C6_createConnection cmWorld0 [] 0 1 0).2 [e01] cmWorld1 e01
    createConnection_first
  exact ⟨h.1, h.2.1, h.2.2.1 (by norm_num) (by norm_num)⟩

/-- Claim C7 (amended): the validation sweep removes exactly the edges whose
presentation handle is missing or detached; it does not inspect whether an
edge's endpoints resolve to live neurons, so an edge referencing a missing
neuron survives the sweep as long as its arrow is attached. -/
theorem claim_C7_validateConnections (conns : List Edge) (e : Edge) :
    e ∈ validateConnections conns ↔ e ∈ conns ∧ e.arrowAttached = true := by
  simp [validateConnections, List.mem_filter]

/-- Counterexample to C7 as stated: an attached-arrow edge whose source index
5 resolves to no live neuron (empty world) survives the sweep, so after the
sweep an edge referencing a missing neuron remains. -/
theorem claim_C7_counterexample :
    validateConnections [danglingEdge] = [danglingEdge]
    ∧ resolvesLive [] danglingEdge.source = false
    ∧ danglingEdge ∈ validateConnections [danglingEdge] := by
  refine ⟨?_, rfl, ?_⟩ <;> simp [validateConnections, danglingEdge]

/-- A non-dropped `playNeuronFiring` request emits a payload, records its
clock value in the rate limiter, and preserves the minimum interval. -/
lemma playNeuronFiring_emit (now w s : ℚ) (id : ℕ) (iso dc : Bool) (d : ℚ) (sm : SM)
    (h : ¬(now - sm.lastPlayTime < sm.minTimeBetweenNotes)) :
    ((playNeuronFiring now w s id iso dc d sm).2).isSome = true
    ∧ (playNeuronFiring now w s id iso dc d sm).1.lastPlayTime = now
    ∧ (playNeuronFiring now w s id iso dc d sm).1.minTimeBetweenNotes
        = sm.minTimeBetweenNotes := by
  unfold playNeuronFiring
  rw [if_neg h]
  rcases hm : mapGet sm.neuronNotes id with _ | nd <;>
    simp [hm, assignNoteRange]

/-- Claim C8: the sonification trigger is rate-limited process-wide — a
request within `minTimeBetweenNotes` of the last emitted payload is dropped
entirely (state unchanged, nothing queued); an emitted payload stamps the
limiter, so a second request within the window after an emission yields no
payload; concretely, with the 200 ms default, two requests 50 ms apart
(the first arriving at least 200 ms after the last play) emit exactly one
payload. -/
theorem claim_C8_rateLimit :
    (∀ (sm : SM) (now w s d : ℚ) (id : ℕ) (iso dc : Bool),
      now - sm.lastPlayTime < sm.minTimeBetweenNotes →
      playNeuronFiring now w s id iso dc d sm = (sm, none))
    ∧ (∀ (sm : SM) (now1 now2 w s d w2 s2 d2 : ℚ) (id id2 : ℕ) (iso dc iso2 dc2 : Bool),
        ((playNeuronFiring now1 w s id iso dc d sm).2).isSome = true →
        now2 - now1 < sm.minTimeBetweenNotes →
        (playNeuronFiring now2 w2 s2 id2 iso2 dc2 d2
            (playNeuronFiring now1 w s id iso dc d sm).1).2 = none)
    ∧ (∀ (sm : SM) (now1 w s d w2 s2 d2 : ℚ) (id id2 : ℕ) (iso dc iso2 dc2 : Bool),
        sm.minTimeBetweenNotes = 200 →
        200 ≤ now1 - sm.lastPlayTime →
        ((playNeuronFiring now1 w s id iso dc d sm).2).isSome = true
        ∧ (playNeuronFiring (now1 + 50) w2 s2 id2 iso2 dc2 d2
            (playNeuronFiring now1 w s id iso dc d sm).1).2 = none) := by
  have hdrop : ∀ (sm : SM) (now w s d : ℚ) (id : ℕ) (iso dc : Bool),
      now - sm.lastPlayTime < sm.minTimeBetweenNotes →
      playNeuronFiring now w s id iso dc d sm = (sm, none) := by
    intro sm now w s d id iso dc h
    unfold playNeuronFiring
    rw [if_pos h]
  refine ⟨hdrop, ?_, ?_⟩
  · intro sm now1 now2 w s d w2 s2 d2 id id2 iso dc iso2 dc2 hsome hlt
    by_cases h1 : now1 - sm.lastPlayTime < sm.minTimeBetweenNotes
    · rw [hdrop _ _ _ _ _ _ _ _ h1] at hsome
      simp at hsome
    · obtain ⟨-, hlp, hmt⟩ := playNeuronFiring_emit now1 w s id iso dc d sm h1
      have hlt2 : now2 - (playNeuronFiring now1 w s id iso dc d sm).1.lastPlayTime <
          (playNeuronFiring now1 w s id iso dc d sm).1.minTimeBetweenNotes := by
        rw [hlp, hmt]
        exact hlt
      rw [hdrop _ _ _ _ _ _ _ _ hlt2]
  · intro sm now1 w s d w2 s2 d2 id id2 iso dc iso2 dc2 hmt200 hge
    have h1 : ¬(now1 - sm.lastPlayTime < sm.minTimeBetweenNotes) := by
      rw [hmt200]
      linarith
    obtain ⟨hsome, hlp, hmt⟩ := playNeuronFiring_emit now1 w s id iso dc d sm h1
    refine ⟨hsome, ?_⟩
    have hlt2 : (now1 + 50) - (playNeuronFiring now1 w s id iso dc d sm).1.lastPlayTime <
        (playNeuronFiring now1 w s id iso dc d sm).1.minTimeBetweenNotes := by
      rw [hlp, hmt, hmt200]
      linarith
    rw [hdrop _ _ _ _ _ _ _ _ hlt2]

/-- Witness for C8: from the initial SoundManager state, a request at clock
1000 emits a payload and a second request at clock 1050 is dropped. -/
theorem claim_C8_rateLimit_witness :
    ((playNeuronFiring 1000 (1/2) (1/2) 7 false false 0 initSM).2).isSome = true
    ∧ (playNeuronFiring 1050 (1/2) (1/2) 7 false false 0
        (playNeuronFiring 1000 (1/2) (1/2) 7 false false 0 initSM).1).2 = none := by
  have h := claim_C8_rateLimit.2.2 initSM 1000 (1/2) (1/2) 0 (1/2) (1/2) 0 7 7
    false false false false rfl (by norm_num [initSM])
  norm_num at h
  exact h

/-- Claim C9 (amended): a neuron's id is stable for its lifetime (no state
operation changes it) and lies in `0..9999`, but it is drawn from
`Math.random()` at construction and is NOT guaranteed unique — distinct
constructions may yield equal ids. -/
theorem claim_C9_neuronId (r : ℚ) (n : Neuron) (now amount v wq sq : ℚ) (t : ℕ) :
    ((addCharge now amount n).1.id = n.id
      ∧ (fire now n).1.id = n.id
      ∧ (setDCInput v n).id = n.id
      ∧ (forceReset n).id = n.id
      ∧ (addConnection t wq sq n).id = n.id
      ∧ (updateConnectionWeight t wq n).id = n.id
      ∧ (updateConnectionSpeed t sq n).id = n.id
      ∧ (removeConnection t n).id = n.id)
    ∧ (0 ≤ r → r < 1 → (mkNeuron r).id ≤ 9999) := by
  constructor
  · refine ⟨?_, ?_, ?_, rfl, rfl, ?_, ?_, rfl⟩
    · unfold addCharge fire
      dsimp only
      split_ifs <;> rfl
    · unfold fire
      split_ifs <;> rfl
    · unfold setDCInput forceReset
      dsimp only
      split_ifs <;> rfl
    · unfold updateConnectionWeight
      split_ifs <;> rfl
    · unfold updateConnectionSpeed
      split_ifs <;> rfl
  · intro h0 h1
    have hfl : ⌊r * 10000⌋ < 10000 := by
      rw [Int.floor_lt]
      push_cast
      nlinarith
    simp only [mkNeuron]
    omega

/-- Counterexample to C9 as stated: two constructor runs with the distinct
`Math.random()` draws 0.5 and 0.50004 produce two distinct neurons carrying
the same id 5000 — ids are not unique. -/
theorem claim_C9_counterexample :
    (1/2 : ℚ) ≠ 50004/100000
    ∧ (mkNeuron (1/2)).id = (mkNeuron (50004/100000)).id := by
  constructor
  · norm_num
  · simp only [mkNeuron]
    norm_num

/-- Witness for the amended C9: the id of a neuron built from draw 1/3 is
preserved by `forceReset` and lies within `0..9999`. -/
theorem claim_C9_neuronId_witness :
    (forceReset (mkNeuron (1/3))).id = (mkNeuron (1/3)).id
    ∧ (mkNeuron (1/3)).id ≤ 9999 :=
  ⟨(claim_C9_neuronId (1/3) (mkNeuron (1/3)) 0 0 0 0 0 0).1.2.2.2.1,
   (claim_C9_neuronId (1/3) (mkNeuron (1/3)) 0 0 0 0 0 0).2 (by norm_num) (by norm_num)⟩

/-- Claim C10: `updateConnectionWeight` / `updateConnectionSpeed` for a target
absent from the outgoing-connection set is a silent no-op leaving the whole
neuron state (weights, speeds, outgoing set, charge, firing state) exactly
unchanged. -/
theorem claim_C10_updateConnection_noop (n : Neuron) (t : ℕ) (w s : ℚ)
    (h : t ∉ n.outgoingConnections) :
    updateConnectionWeight t w n = n ∧ updateConnectionSpeed t s n = n := by
  unfold updateConnectionWeight updateConnectionSpeed
  rw [if_neg h, if_neg h]
  exact ⟨rfl, rfl⟩

/-- Witness for C10: a fresh neuron has no outgoing connection to target 3,
and both update calls leave it untouched. -/
theorem claim_C10_updateConnection_noop_witness :
    updateConnectionWeight 3 (1/2) (mkNeuron 0) = mkNeuron 0
    ∧ updateConnectionSpeed 3 (1/2) (mkNeuron 0) = mkNeuron 0 :=
  claim_C10_updateConnection_noop (mkNeuron 0) 3 (1/2) (1/2) (by simp [mkNeuron])

end SNN
